import Mathlib

/-!
Verification of the landing-page generator's style-extraction pipeline and
AI-generation orchestration, as a shallow embedding of the TypeScript source
(`src/lib/scraper.ts`, `src/lib/storage.ts`, `src/lib/ai.ts` and the second
scraper/AI variants) into Lean.

Strings are modelled as Lean `String` (`List Char`); JavaScript regular
expressions are modelled by explicit character scanners that follow the regex
semantics on the character classes involved; the browser DOM is modelled by a
structure carrying the answers to exactly the `querySelector(All)` calls the
source makes; network effects are modelled by explicit outcome parameters.
-/

/-! ## Character and string helpers (JS semantics) -/

/-- The backtick character (U+0060). -/
def btick : Char := Char.ofNat 96

/-- The double-quote character. -/
def dq : Char := Char.ofNat 34

/-- The single-quote character. -/
def squo : Char := Char.ofNat 39

/-- The right-brace character. -/
def rbrace : Char := Char.ofNat 125

/-- JavaScript whitespace (the part of the `\s` class and `String.trim` set
exercised by this code base: space, tab, newline, carriage return, vertical
tab, form feed). -/
def jsWs (c : Char) : Bool :=
  c = ' ' || c = '\t' || c = '\n' || c = '\r' || c = '\x0b' || c = '\x0c'

/-- `isPrefixL p l` decides whether the character list `p` is a prefix of `l`
(JS `String.startsWith`). -/
def isPrefixL : List Char → List Char → Bool
  | [], _ => true
  | _ :: _, [] => false
  | a :: as, b :: bs => a = b && isPrefixL as bs

/-- JS `String.startsWith`. -/
def jsStartsWith (s p : String) : Bool := isPrefixL p.data s.data

/-- JS `String.endsWith`. -/
def jsEndsWith (s p : String) : Bool := isPrefixL p.data.reverse s.data.reverse

/-- Substring occurrence over character lists (JS `String.includes`). -/
def listContainsSub (pat : List Char) : List Char → Bool
  | [] => isPrefixL pat []
  | l@(_ :: t) => isPrefixL pat l || listContainsSub pat t

/-- JS `String.includes`. -/
def containsSub (s pat : String) : Bool := listContainsSub pat.data s.data

/-- Split a character list at every occurrence of `sep`, keeping empty pieces
(JS `String.split` with a one-character separator). -/
def splitOnCharL (sep : Char) : List Char → List (List Char)
  | [] => [[]]
  | c :: t =>
    if c = sep then [] :: splitOnCharL sep t
    else
      match splitOnCharL sep t with
      | [] => [[c]]
      | h :: r => (c :: h) :: r

/-- Join pieces with a separator character (JS `Array.join`). -/
def joinWithChar (sep : Char) : List (List Char) → List Char
  | [] => []
  | [x] => x
  | x :: xs => x ++ sep :: joinWithChar sep xs

/-- Split into lines at `'\n'` (how the multiline regex anchors `^`/`$` see a
string; other JS line terminators are not exercised by this code base). -/
def splitLinesL (l : List Char) : List (List Char) := splitOnCharL '\n' l

/-- Join lines with `'\n'`. -/
def joinLinesL (ls : List (List Char)) : List Char := joinWithChar '\n' ls

/-- JS `String.trim` on a character list. -/
def trimL (l : List Char) : List Char :=
  ((l.dropWhile jsWs).reverse.dropWhile jsWs).reverse

/-- Drop the first `n` characters of a string. -/
def strDrop (s : String) (n : Nat) : String := String.mk (s.data.drop n)

/-- JS `parseInt` on a character list, restricted to the decimal forms this
code base feeds it (optional sign after whitespace, then decimal digits);
`none` models `NaN`. -/
def jsParseIntL (l : List Char) : Option Int :=
  let l1 := l.dropWhile jsWs
  let core : List Char → Option Int := fun r =>
    let d := r.takeWhile Char.isDigit
    if d = [] then none
    else some ((d.foldl (fun a c => a * 10 + (c.toNat - 48)) 0 : Nat) : Int)
  match l1 with
  | '-' :: r => (core r).map (fun n => -n)
  | '+' :: r => core r
  | r => core r

/-- JS `parseInt` on a string. -/
def jsParseInt (s : String) : Option Int := jsParseIntL s.data

/-- `k ≤ v` on a `parseInt` result; `NaN` compares false. -/
def intGE (o : Option Int) (k : Int) : Bool :=
  match o with
  | some v => decide (k ≤ v)
  | none => false

/-! ## Model of the WHATWG `new URL` constructor

`scraper.ts` relies on the browser's `new URL(input, base)`.  The model below
covers the behaviours the code exercises: an input that already carries an
explicit scheme is returned unchanged, and a scheme-less input is resolved
against a hierarchical `scheme://host/path` base (path-segment
normalisation, query/fragment splitting and protocol-relative inputs are not
modelled; they are not exercised by the claims).  `none` models the
constructor throwing `TypeError`. -/

/-- Characters allowed in a URL scheme after the leading letter. -/
def isSchemeChar (c : Char) : Bool :=
  c.isAlphanum || c = '+' || c = '-' || c = '.'

/-- `schemeTailB r` holds when `r` begins with zero or more scheme characters
followed by a colon. -/
def schemeTailB : List Char → Bool
  | [] => false
  | c :: r => c = ':' || (isSchemeChar c && schemeTailB r)

/-- Whether a character list begins with an explicit URL scheme (`letter`
followed by scheme characters and a colon). -/
def hasSchemeL : List Char → Bool
  | [] => false
  | c :: r => c.isAlpha && schemeTailB r

/-- Whether a string begins with an explicit URL scheme — i.e. whether it is
an absolute URL rather than a relative reference. -/
def hasScheme (s : String) : Bool := hasSchemeL s.data

/-- Split a character list at the first colon, requiring every character
before it to be a scheme character. -/
def splitAtColon : List Char → Option (List Char × List Char)
  | [] => none
  | c :: r =>
    if c = ':' then some ([], r)
    else if isSchemeChar c then (splitAtColon r).map (fun p => (c :: p.1, p.2))
    else none

/-- Parse a hierarchical absolute base URL `scheme://host[/path]` into its
leading scheme letter, remaining scheme characters, host and path. -/
def splitAbsBase (base : String) : Option (Char × List Char × List Char × List Char) :=
  match base.data with
  | [] => none
  | c :: rest =>
    if c.isAlpha then
      match splitAtColon rest with
      | none => none
      | some (sc, afterColon) =>
        match afterColon with
        | '/' :: '/' :: hp =>
          let host := hp.takeWhile (fun x => x ≠ '/')
          let path := hp.dropWhile (fun x => x ≠ '/')
          if host = [] then none
          else some (c, sc, host, if path = [] then ['/'] else path)
        | _ => none
    else none

/-- The directory part of a path (everything up to and including the last
slash). -/
def dirChars (path : List Char) : List Char :=
  (path.reverse.dropWhile (fun c => c ≠ '/')).reverse

/-- Model of `new URL(input, base).href` (see the section comment). -/
def newURLHref (input base : String) : Option String :=
  if hasScheme input then some input
  else
    match splitAbsBase base with
    | none => none
    | some (c, sc, host, path) =>
      let rel := input.data
      let p := match rel with
        | '/' :: _ => rel
        | _ => dirChars path ++ rel
      some (String.mk (c :: (sc ++ (':' :: '/' :: '/' :: (host ++ p)))))

/-! ## `resolveUrl` (scraper.ts lines 251–269) -/

/-- The sandboxed-container host marker special-cased by `resolveUrl`. -/
def webcontainerMarker : String := "local-credentialless.webcontainer-api.io"

/-- The `urlParts.slice(urlParts.indexOf('assets')).join('/')` computation of
the webcontainer branch; `indexOf` returning `-1` makes `slice(-1)` keep only
the last segment. -/
def assetPathOf (url : String) : String :=
  let parts := splitOnCharL '/' url.data
  let tailParts :=
    match parts.findIdx? (fun p => decide (p = "assets".data)) with
    | some k => parts.drop k
    | none => parts.drop (parts.length - 1)
  String.mk (joinWithChar '/' tailParts)

/-- `resolveUrl(baseUrl, url)` from scraper.ts: empty and `data:` inputs give
`""`; inputs containing the webcontainer host are re-rooted at their `assets`
path segment; absolute `http(s)` inputs pass through; protocol-relative
inputs get `https:`; anything else is resolved against the base, with any
constructor error caught and mapped to `""`. -/
def resolveUrl (baseUrl url : String) : String :=
  if url = "" then ""
  else if jsStartsWith url "data:" then ""
  else if containsSub url webcontainerMarker then
    match newURLHref (assetPathOf url) baseUrl with
    | some r => r
    | none => ""
  else if jsStartsWith url "http://" || jsStartsWith url "https://" then url
  else if jsStartsWith url "//" then "https:" ++ url
  else
    match newURLHref url baseUrl with
    | some r => r
    | none => ""

/-! ## Document model

`scraper.ts` inspects a parsed document only through specific
`querySelector(All)` calls.  A `Doc` records the answers to exactly those
queries, one field per query site (field doc comments name the selector). -/

/-- An `<img>` element as inspected by the code: its `src`, `width` and
`height` attributes (`none` models `getAttribute` returning `null`). -/
structure ImgEl where
  src : Option String
  width : Option String
  height : Option String

/-- The document model; see the section comment. -/
structure Doc where
  /-- `document.baseURI`. -/
  baseURI : String
  /-- For each of the four hero selectors (`.hero img`, `[class*="hero"] img`,
  `header img:not([src*="logo"])`, `main > section:first-child img`): the
  `src` attribute of the first matching element. -/
  heroFirstSrcs : List (Option String)
  /-- `querySelectorAll('img')`. -/
  allImgs : List ImgEl
  /-- For each of the five content selectors (`.features img`, `.products img`,
  `.gallery img`, `article img`, `section img`): the `src` attributes of all
  matching elements. -/
  contentImgSrcs : List (List (Option String))
  /-- `el.style.backgroundImage` for every element of the document
  (`""` when unset). -/
  bgImageValues : List String
  /-- The `style` attribute values present on elements matching
  `[style], [class]`, in document order. -/
  styleAttrs : List String
  /-- The text content of each `<style>` element, in document order. -/
  styleBlocks : List String
  /-- The `href` attributes of `link[href*="fonts.googleapis.com"]` elements
  (`getAttribute('href') || ''` applied). -/
  fontLinkHrefs : List String
  /-- `querySelector('meta[name="description"]')?.getAttribute('content')`. -/
  metaDescription : Option String
  /-- For each of the brand-qualified logo selectors, in source order: the
  `src || data-src` of the first matching element. -/
  brandSelFirstSrcs : List (Option String)
  /-- For each of the eight generic logo selectors, in source order: the
  `src || data-src` of the first matching element. -/
  genericSelFirstSrcs : List (Option String)
  /-- `querySelectorAll('header img, nav img')`. -/
  headerNavImgs : List ImgEl

/-- A document none of whose queries match anything. -/
def emptyDoc : Doc :=
  { baseURI := "https://example.com"
    heroFirstSrcs := []
    allImgs := []
    contentImgSrcs := []
    bgImageValues := []
    styleAttrs := []
    styleBlocks := []
    fontLinkHrefs := []
    metaDescription := none
    brandSelFirstSrcs := []
    genericSelFirstSrcs := []
    headerNavImgs := [] }

/-! ## Asset extraction (scraper.ts lines 271–489) -/

/-- Insertion into a JS `Set` (keeps first-occurrence order, drops
duplicates). -/
def insertUniq (acc : List String) (x : String) : List String :=
  if x ∈ acc then acc else acc ++ [x]

/-- `images.add(resolveUrl(doc.baseURI, src))` guarded by `src` being truthy. -/
def addIfSrc (baseURI : String) (acc : List String) (o : Option String) : List String :=
  match o with
  | some src => if src ≠ "" then insertUniq acc (resolveUrl baseURI src) else acc
  | none => acc

/-- The `$`-anchored tail of the image-extension regex
`/\.(jpg|jpeg|png|webp)(\?.*)?$/i`: after the extension the string must end,
or continue with `?` and no newline. -/
def extTailOk : List Char → Bool
  | [] => true
  | '?' :: t => t.all (fun c => c ≠ '\n')
  | _ => false

/-- Case-insensitive match of an extension word followed by a valid tail. -/
def matchExtWord (w : List Char) (l : List Char) : Bool :=
  match w, l with
  | [], rest => extTailOk rest
  | _ :: _, [] => false
  | c :: ws, x :: xs => (x.toLower = c) && matchExtWord ws xs

/-- Whether the regex `/\.(jpg|jpeg|png|webp)(\?.*)?$/i` matches starting at
this position. -/
def extAtHere (l : List Char) : Bool :=
  match l with
  | '.' :: r =>
    matchExtWord "jpg".data r || matchExtWord "jpeg".data r ||
    matchExtWord "png".data r || matchExtWord "webp".data r
  | _ => false

/-- Search all positions for an extension match. -/
def hasImgExtGo : List Char → Bool
  | [] => false
  | l@(_ :: t) => extAtHere l || hasImgExtGo t

/-- `/\.(jpg|jpeg|png|webp)(\?.*)?$/i.test(src)`. -/
def hasImgExt (s : String) : Bool := hasImgExtGo s.data

/-- Try to match `/url\(['"]?([^'")]+)['"]?\)/` at this position, returning
the captured group. -/
def cssUrlAt (l : List Char) : Option String :=
  match l with
  | 'u' :: 'r' :: 'l' :: '(' :: r =>
    let r1 := match r with
      | c :: t => if c = dq || c = squo then t else r
      | [] => r
    let content := r1.takeWhile (fun c => !(c = dq || c = squo || c = ')'))
    if content = [] then none
    else
      let r2 := r1.drop content.length
      let r3 := match r2 with
        | c :: t => if c = dq || c = squo then t else r2
        | [] => r2
      match r3 with
      | ')' :: _ => some (String.mk content)
      | _ => none
  | _ => none

/-- First match of the CSS `url(...)` regex in a string
(`bg.match(/url\(['"]?([^'")]+)['"]?\)/)` capture 1). -/
def extractCssUrlGo : List Char → Option String
  | [] => none
  | l@(_ :: t) =>
    match cssUrlAt l with
    | some u => some u
    | none => extractCssUrlGo t

/-- See `extractCssUrlGo`. -/
def extractCssUrl (s : String) : Option String := extractCssUrlGo s.data

/-- `findImages` (scraper.ts lines 347–421): hero images, large extension-
filtered images, content-section images and inline `background-image` URLs
are added to one `Set` in that order; the result is logo-filtered and capped
to 5. -/
def findImages (doc : Doc) : List String :=
  let s1 := doc.heroFirstSrcs.foldl (addIfSrc doc.baseURI) []
  let largeSrcs :=
    (((doc.allImgs.filter (fun im =>
        let w := jsParseInt (im.width.getD "0")
        let h := jsParseInt (im.height.getD "0")
        let src := im.src.getD ""
        (intGE w 600 || intGE h 400) && (!containsSub src "logo") && hasImgExt src)).map
      (fun im => im.src.getD "")).filter (fun s => decide (s ≠ ""))).map
      (resolveUrl doc.baseURI)
  let s2 := largeSrcs.foldl insertUniq s1
  let s3 := doc.contentImgSrcs.foldl (fun acc lst =>
    lst.foldl (fun acc o =>
      match o with
      | some src =>
        if src ≠ "" && hasImgExt src then insertUniq acc (resolveUrl doc.baseURI src)
        else acc
      | none => acc) acc) s2
  let s4 := (doc.bgImageValues.filter (fun bg => bg ≠ "" && bg ≠ "none")).foldl
    (fun acc bg =>
      match extractCssUrl bg with
      | some u => if u ≠ "" then insertUniq acc (resolveUrl doc.baseURI u) else acc
      | none => acc) s3
  (s4.filter (fun src => !containsSub src "logo")).take 5

/-- First selector whose element exists with a truthy source attribute. -/
def firstTruthy : List (Option String) → Option String
  | [] => none
  | some s :: rest => if s ≠ "" then some s else firstTruthy rest
  | none :: rest => firstTruthy rest

/-- The square-image filter of the logo last resort: `width === height` as
numbers and `32 ≤ width ≤ 200` (missing attributes parse as `'0'`). -/
def squareLogoMatch (im : ImgEl) : Bool :=
  match jsParseInt (im.width.getD "0"), jsParseInt (im.height.getD "0") with
  | some w, some h => decide (w = h) && decide (32 ≤ w) && decide (w ≤ 200)
  | _, _ => false

/-- `findLogo` (scraper.ts lines 271–345): brand-qualified selectors first
(only when a brand is supplied), then generic logo selectors, then the first
square header/nav image; each hit is resolved against `doc.baseURI`. -/
def findLogo (doc : Doc) (brand : Option String) : Option String :=
  match (match brand with
         | some _ => firstTruthy doc.brandSelFirstSrcs
         | none => none) with
  | some src => some (resolveUrl doc.baseURI src)
  | none =>
    match firstTruthy doc.genericSelFirstSrcs with
    | some src => some (resolveUrl doc.baseURI src)
    | none =>
      match doc.headerNavImgs.filter squareLogoMatch with
      | [] => none
      | im :: _ =>
        match im.src with
        | some src => if src ≠ "" then some (resolveUrl doc.baseURI src) else none
        | none => none

/-- Hexadecimal digit (`[0-9A-Fa-f]`). -/
def isHexD (c : Char) : Bool :=
  c.isDigit || (decide ('a' ≤ c) && decide (c ≤ 'f')) || (decide ('A' ≤ c) && decide (c ≤ 'F'))

/-- Scanner for the colour regex
`/(#[0-9A-Fa-f]{3,6}|rgb\([^)]+\)|rgba\([^)]+\))/g`: all non-overlapping
matches left to right.  The fuel argument starts at the list length and is
enough because every step consumes at least one character. -/
def scanColorsGo : Nat → List Char → List String
  | 0, _ => []
  | _, [] => []
  | f + 1, '#' :: rest =>
    let hex := (rest.takeWhile isHexD).take 6
    if 3 ≤ hex.length then
      String.mk ('#' :: hex) :: scanColorsGo f (rest.drop hex.length)
    else scanColorsGo f rest
  | f + 1, 'r' :: 'g' :: 'b' :: '(' :: rest =>
    let inner := rest.takeWhile (fun c => c ≠ ')')
    if inner ≠ [] && (rest.drop inner.length).head? = some ')' then
      String.mk ("rgb(".data ++ inner ++ [')']) :: scanColorsGo f (rest.drop (inner.length + 1))
    else scanColorsGo f ('g' :: 'b' :: '(' :: rest)
  | f + 1, 'r' :: 'g' :: 'b' :: 'a' :: '(' :: rest =>
    let inner := rest.takeWhile (fun c => c ≠ ')')
    if inner ≠ [] && (rest.drop inner.length).head? = some ')' then
      String.mk ("rgba(".data ++ inner ++ [')']) :: scanColorsGo f (rest.drop (inner.length + 1))
    else scanColorsGo f ('g' :: 'b' :: 'a' :: '(' :: rest)
  | f + 1, _ :: t => scanColorsGo f t

/-- All colour-literal matches in a string. -/
def scanColors (s : String) : List String := scanColorsGo s.data.length s.data

/-- The keyword filter of `extractColors` (can never exclude a regex match,
but is modelled as written). -/
def colorTokenOk (c : String) : Bool :=
  (!containsSub c "var(") && (!(["inherit", "transparent", "currentColor"].contains c))

/-- `extractColors` (scraper.ts lines 423–457): colour literals from inline
`style` attributes then `<style>` blocks, filtered, deduplicated in first-seen
order, capped to 5.  The source ends with
`Array.from(colors).slice(0, 5) || DEFAULT_STYLE.colors`; an array is always
truthy in JS, so the `|| DEFAULT_STYLE.colors` alternative is dead code and
the function returns the (possibly empty) sliced array — the model therefore
has no default fallback. -/
def extractColors (doc : Doc) : List String :=
  let fromAttrs := doc.styleAttrs.foldl
    (fun acc st => ((scanColors st).filter colorTokenOk).foldl insertUniq acc) []
  let all := doc.styleBlocks.foldl
    (fun acc css => ((scanColors css).filter colorTokenOk).foldl insertUniq acc) fromAttrs
  all.take 5

/-- `"font-family:"`. -/
def fontDeclKey : List Char := "font-family:".data

/-- Scanner for `/font-family:\s*([^;}"']+)/g`, returning the full match
strings.  Fuel as in `scanColorsGo`. -/
def scanFontsGo : Nat → List Char → List String
  | 0, _ => []
  | _, [] => []
  | f + 1, l@(_ :: t) =>
    if isPrefixL fontDeclKey l then
      let after := l.drop 12
      let ws := after.takeWhile jsWs
      let afterWs := after.drop ws.length
      let val := afterWs.takeWhile (fun c => !(c = ';' || c = rbrace || c = dq || c = squo))
      if val ≠ [] then
        String.mk (fontDeclKey ++ ws ++ val) :: scanFontsGo f (afterWs.drop val.length)
      else scanFontsGo f t
    else scanFontsGo f t

/-- All `font-family` declaration matches in a string. -/
def scanFonts (s : String) : List String := scanFontsGo s.data.length s.data

/-- The per-match post-processing of `extractFonts`:
`font.replace('font-family:', '').trim().split(',')[0].replace(/['"]/g, '').trim()`. -/
def fontNameOfMatch (m : String) : String :=
  let v1 := trimL (m.data.drop 12)
  let first := v1.takeWhile (fun c => c ≠ ',')
  let noQ := first.filter (fun c => !(c = dq || c = squo))
  String.mk (trimL noQ)

/-- The generic/system names excluded by `extractFonts`. -/
def genericFontNames : List String :=
  ["inherit", "system-ui", "-apple-system", "sans-serif", "serif", "monospace"]

/-- The font filter of `extractFonts`. -/
def fontFilter (f : String) : Bool :=
  (!containsSub f "var(") && (!(genericFontNames.contains f))

/-- First match of `/family=([^&:]+)/` in a Google-Fonts link href. -/
def ffGo : List Char → Option String
  | [] => none
  | l@(_ :: t) =>
    if isPrefixL "family=".data l then
      let cap := (l.drop 7).takeWhile (fun c => !(c = '&' || c = ':'))
      if cap = [] then ffGo t else some (String.mk cap)
    else ffGo t

/-- See `ffGo`. -/
def findFamilyParam (href : String) : Option String := ffGo href.data

/-- `extractFonts` (scraper.ts lines 459–489): first family name of each
`font-family` declaration in `<style>` blocks (filtered), plus Google-Fonts
`family=` query parameters with `+` replaced by spaces; deduplicated, capped
to 3.  As in `extractColors`, the trailing `|| DEFAULT_STYLE.fonts` of the
source is dead code (an array is always truthy) and is not modelled. -/
def extractFonts (doc : Doc) : List String :=
  let fromCss := doc.styleBlocks.foldl
    (fun acc css =>
      ((scanFonts css).map fontNameOfMatch).foldl
        (fun acc f => if fontFilter f then insertUniq acc f else acc) acc) []
  let withLinks := doc.fontLinkHrefs.foldl
    (fun acc href =>
      match findFamilyParam href with
      | some fam => insertUniq acc (String.mk (fam.data.map (fun c => if c = '+' then ' ' else c)))
      | none => acc) fromCss
  withLinks.take 3

/-! ## The style-profile data model (`WebsiteStyle`, types/database.ts) -/

/-- A call-to-action button style token. -/
structure ButtonStyle where
  backgroundColor : String
  color : String
  padding : String
  borderRadius : String
deriving DecidableEq

/-- A heading style token. -/
structure HeaderStyle where
  fontFamily : String
  fontSize : String
  fontWeight : String
  color : String
deriving DecidableEq

/-- Layout tokens. -/
structure LayoutStyle where
  maxWidth : String
  containerPadding : String
  gridGap : String
deriving DecidableEq

/-- The `styles` sub-object of `WebsiteStyle`. -/
structure StyleTokens where
  spacing : List String
  borderRadius : List String
  layout : LayoutStyle
  buttonStyles : List ButtonStyle
  headerStyles : List HeaderStyle
  gradients : List String
  shadows : List String
deriving DecidableEq

/-- The style profile.  Optional array fields of the TS interface are
modelled as lists (absent = `[]`), optional scalar fields as `Option`. -/
structure WebsiteStyle where
  colors : List String
  fonts : List String
  images : List String
  logo : Option String
  metaDescription : Option String
  headings : List String
  styles : StyleTokens
deriving DecidableEq

/-- The reliable Unsplash fallback list of scraper.ts (5 entries). -/
def FALLBACK_IMAGES : List String :=
  [ "https://images.unsplash.com/photo-1606857521015-7f9fcf423740?w=1200&q=80"
  , "https://images.unsplash.com/photo-1618005182384-a83a8bd57fbe?w=1200&q=80"
  , "https://images.unsplash.com/photo-1551434678-e076c223a692?w=1200&q=80"
  , "https://images.unsplash.com/photo-1506765515384-028b60a970df?w=1200&q=80"
  , "https://images.unsplash.com/photo-1498050108023-c5249f4df085?w=1200&q=80" ]

/-- `DEFAULT_STYLE` of scraper.ts (lines 15–49). -/
def DEFAULT_STYLE : WebsiteStyle :=
  { colors := ["#1a1a1a", "#ffffff", "#3b82f6", "#4F46E5", "#7C3AED"]
    fonts := ["system-ui", "-apple-system", "sans-serif"]
    images := FALLBACK_IMAGES
    logo := none
    metaDescription := none
    headings := []
    styles :=
      { spacing := ["0.5rem", "1rem", "1.5rem", "2rem"]
        borderRadius := ["0.25rem", "0.5rem", "0.75rem"]
        layout := { maxWidth := "1200px", containerPadding := "2rem", gridGap := "2rem" }
        buttonStyles :=
          [ { backgroundColor := "#4F46E5", color := "#FFFFFF"
              padding := "0.75rem 1.5rem", borderRadius := "0.375rem" } ]
        headerStyles :=
          [ { fontFamily := "system-ui", fontSize := "2.25rem"
              fontWeight := "700", color := "#1F2937" } ]
        gradients :=
          [ "linear-gradient(to right, #4F46E5, #7C3AED)"
          , "linear-gradient(to bottom, #F9FAFB, #F3F4F6)" ]
        shadows :=
          [ "0 1px 3px rgba(0,0,0,0.1)"
          , "0 4px 6px rgba(0,0,0,0.1)"
          , "0 10px 15px rgba(0,0,0,0.1)" ] } }

/-! ## The scrape orchestrator (scraper.ts lines 491–620) -/

/-- The per-category counts of a scraping log entry. -/
structure AssetsFound where
  colors : Nat
  fonts : Nat
  images : Nat
  logo : Bool
  styles : Bool
deriving DecidableEq

/-- A `ScrapingLog` record.  The wall-clock fields (`timestamp`,
`duration_ms`) are abstracted to constants; `retries` is the constant `0` of
the source. -/
structure ScrapingLog where
  url : String
  success : Bool
  assets_found : AssetsFound
  errors : Option (List String)
  duration_ms : Nat
  retries : Nat
  using_default_styles : Bool
deriving DecidableEq

/-- What `storeProjectAssets` returns. -/
structure StoreResult where
  images : List String
  logo : Option String

/-- The persistence adapter as consumed by the orchestrator: a function from
the discovered images and logo to the stored result. -/
abbrev StoreFn := List String → Option String → StoreResult

/-- Outcome of `makeScrapingBeeRequest(url, true)` followed by `DOMParser`
as seen by `scrapeWebsite`: a parsed document, the thrown
`Error('API_LIMIT_REACHED')`, or any other thrown error's message. -/
inductive FetchOutcome where
  | ok (doc : Doc)
  | quotaLimit
  | fail (msg : String)

/-- The image list of the returned profile: discovered images re-resolved
against the scrape URL, falsy entries dropped, padded with
`FALLBACK_IMAGES.slice(images.length)` and capped to 5
(scraper.ts lines 521–531). -/
def finalImagesOf (url : String) (doc : Doc) : List String :=
  let images := ((findImages doc).map (resolveUrl url)).filter (fun s => decide (s ≠ ""))
  (images ++ FALLBACK_IMAGES.drop images.length).take 5

/-- The logo of the returned profile:
`logoUrl ? resolveUrl(url, logoUrl) : undefined` (scraper.ts lines 516–517). -/
def logoOf (url : String) (doc : Doc) (brand : Option String) : Option String :=
  match findLogo doc brand with
  | some logoUrl => if logoUrl ≠ "" then some (resolveUrl url logoUrl) else none
  | none => none

/-- `scrapeWebsite` (scraper.ts lines 491–620).  The network fetch is an
explicit `FetchOutcome` and the persistence adapter an explicit `StoreFn`;
the function returns the style profile together with the list of scraping-log
entries written during the call.  On success the profile is the default
profile overridden by the non-empty extracted values; on
`Error('API_LIMIT_REACHED')` and on any other error the pure default profile
is returned; each branch writes exactly one log entry. -/
def scrapeWebsite (url _projectId : String) (brand : Option String)
    (fetch : FetchOutcome) (store : StoreFn) : WebsiteStyle × List ScrapingLog :=
  match fetch with
  | .ok doc =>
    let extractedColors := extractColors doc
    let extractedFonts := extractFonts doc
    let metaDescription := doc.metaDescription
    let logo := logoOf url doc brand
    let finalImages := finalImagesOf url doc
    let processedAssets := store finalImages logo
    let log : ScrapingLog :=
      { url := url
        success := true
        assets_found :=
          { colors := extractedColors.length
            fonts := extractedFonts.length
            images := processedAssets.images.length
            logo := processedAssets.logo.isSome
            styles := true }
        errors := none
        duration_ms := 0
        retries := 0
        using_default_styles := false }
    let profile : WebsiteStyle :=
      { DEFAULT_STYLE with
        colors := if extractedColors.length > 0 then extractedColors else DEFAULT_STYLE.colors
        fonts := if extractedFonts.length > 0 then extractedFonts else DEFAULT_STYLE.fonts
        images := finalImages
        logo := logo
        metaDescription := metaDescription }
    (profile, [log])
  | .quotaLimit =>
    (DEFAULT_STYLE,
     [{ url := url
        success := false
        assets_found :=
          { colors := DEFAULT_STYLE.colors.length
            fonts := DEFAULT_STYLE.fonts.length
            images := FALLBACK_IMAGES.length
            logo := false
            styles := true }
        errors := some ["API calls limit reached - using default styles"]
        duration_ms := 0
        retries := 0
        using_default_styles := true }])
  | .fail msg =>
    (DEFAULT_STYLE,
     [{ url := url
        success := false
        assets_found := { colors := 0, fonts := 0, images := 0, logo := false, styles := false }
        errors := some [msg]
        duration_ms := 0
        retries := 0
        using_default_styles := true }])

/-! ## Generation-output cleanup (`cleanGeneratedCode`, ai.ts lines 200–207) -/

/-- One line under `/^```(html)?/gm` (greedy: `\x60\x60\x60html` is removed
whole, otherwise a bare `\x60\x60\x60` prefix). -/
def stripOpenFenceLine (line : List Char) : List Char :=
  if isPrefixL "```html".data line then line.drop 7
  else if isPrefixL "```".data line then line.drop 3
  else line

/-- One line under `/```$/gm`. -/
def stripCloseFenceLine (line : List Char) : List Char :=
  if isPrefixL "```".data.reverse line.reverse then line.take (line.length - 3)
  else line

/-- Apply a per-line transformation at every `^`…`$` line of a string (the
`m`-flag passes of the two fence regexes). -/
def passFences (strip : List Char → List Char) (l : List Char) : List Char :=
  joinLinesL ((splitLinesL l).map strip)

/-- `/^`+"`"+`|`+"`"+`$/g` (no `m` flag): remove one leading and one trailing
backtick of the whole string. -/
def stripWrapTicks (l : List Char) : List Char :=
  let a := match l with
    | c :: t => if c = btick then t else l
    | [] => l
  match a.reverse with
  | c :: t => if c = btick then t.reverse else a
  | [] => a

/-- `cleanGeneratedCode` (ai.ts lines 200–207): strip line-leading
```` ```html ````/```` ``` ```` fences, line-trailing ```` ``` ```` fences,
one surrounding pair of single backticks, then trim. -/
def cleanGeneratedCode (code : String) : String :=
  let p1 := passFences stripOpenFenceLine code.data
  let p2 := passFences stripCloseFenceLine p1
  let p3 := stripWrapTicks p2
  String.mk (trimL p3)

/-! ## The Generation Client retry loop (ai.ts lines 209–338)

One iteration's try block (rate-limit wait, client construction, provider
call, empty-content check) is abstracted into a per-attempt outcome; the rest
of the loop — retryability test on the thrown message, retry counting against
`MAX_RETRIES`, the final `{html: '', error}` return — is modelled as
written.  The backoff delays do not affect the returned value and are not
tracked here. -/

/-- Outcome of one provider call: the generated content, or the message of
the error the try block threw. -/
inductive GenOutcome where
  | ok (content : String)
  | err (msg : String)

/-- The `{html, error}` pair returned by `generateLandingPage`. -/
structure GenResult where
  html : String
  error : Option String
deriving DecidableEq

/-- `MAX_RETRIES` of ai.ts. -/
def MAX_RETRIES : Nat := 3

/-- The retryability test of ai.ts (lines 315–319): the error message must
mention rate limiting, timeout, network failure or an internal provider
error. -/
def retryableMsg (m : String) : Bool :=
  containsSub m "rate_limit" || containsSub m "timeout" ||
  containsSub m "network" || containsSub m "internal_error"

/-- The `while (retries < MAX_RETRIES)` loop of `generateLandingPage`,
structurally recursive on `MAX_RETRIES - retries`.  `attempts i` is the
outcome of the `i`-th provider call; empty generated content throws
`'Failed to generate landing page content'` inside the try block. -/
def genLoop (attempts : Nat → GenOutcome) : Nat → Nat → Option String → GenResult
  | 0, _, lastErr => { html := "", error := some (lastErr.getD "Failed to generate content") }
  | fuel + 1, i, _ =>
    match attempts i with
    | .ok c =>
      if c = "" then
        let m := "Failed to generate landing page content"
        if retryableMsg m then genLoop attempts fuel (i + 1) (some m)
        else { html := "", error := some m }
      else { html := cleanGeneratedCode c, error := none }
    | .err m =>
      if retryableMsg m then genLoop attempts fuel (i + 1) (some m)
      else { html := "", error := some m }

/-- `generateLandingPage` (ai.ts, the variant with `cleanGeneratedCode`). -/
def generateLandingPage (attempts : Nat → GenOutcome) : GenResult :=
  genLoop attempts MAX_RETRIES 0 none

/-! ## Generation Client rate limiting (ai.ts lines 164–194) -/

/-- `MIN_REQUEST_INTERVAL` of ai.ts: 20 seconds in milliseconds. -/
def MIN_REQUEST_INTERVAL : Nat := 20000

/-- `waitForRateLimit` under an idealised clock in which
`setTimeout(resolve, d)` resumes exactly `d` ms later: given the current time
and the recorded time of the previous request, returns the time at which the
call proceeds (and at which `lastRequestTime` is re-recorded). -/
def waitForRateLimit (now lastRequestTime : Nat) : Nat :=
  if now - lastRequestTime < MIN_REQUEST_INTERVAL then
    now + (MIN_REQUEST_INTERVAL - (now - lastRequestTime))
  else now

/-! ## The Rendering Proxy Client retry loop
(`makeScrapingBeeRequest`, scraper.ts lines 136–232)

The try block of one attempt (the proxy fetch, status check, quota-marker
check and stylesheet inlining) is abstracted into a per-attempt outcome; the
catch block — immediate rethrow of `API_LIMIT_REACHED`, retry while
`retryCount < 2` after a `2000 * (retryCount + 1)` ms delay — is modelled as
written, with the backoff delays collected in order. -/

/-- Outcome of one attempt's try block: the HTML, the thrown
`Error('API_LIMIT_REACHED')`, or any other thrown error's message. -/
inductive BeeOutcome where
  | ok (html : String)
  | quota
  | fail (msg : String)

/-- The error `makeScrapingBeeRequest` finally throws. -/
inductive BeeErr where
  | quotaLimit
  | upstream (msg : String)
deriving DecidableEq

/-- The retry recursion of `makeScrapingBeeRequest`: `remaining` is
`2 - retryCount`, `idx` the current attempt index.  Returns the final result
and the list of backoff delays slept, in order. -/
def beeGo (attempts : Nat → BeeOutcome) : Nat → Nat → Except BeeErr String × List Nat
  | remaining, idx =>
    match attempts idx with
    | .ok h => (.ok h, [])
    | .quota => (.error .quotaLimit, [])
    | .fail m =>
      match remaining with
      | 0 => (.error (.upstream m), [])
      | r + 1 =>
        let res := beeGo attempts r (idx + 1)
        (res.1, (2000 * (idx + 1)) :: res.2)

/-- `makeScrapingBeeRequest(url, withJs)` (initial `retryCount = 0`). -/
def makeScrapingBeeRequest (attempts : Nat → BeeOutcome) : Except BeeErr String × List Nat :=
  beeGo attempts 2 0

/-! ## The Stylesheet Resolver's recursive `@import` fetching
(`fetchExternalStylesheet`, scraper.ts lines 77–134)

The source recursion carries no depth parameter at all.  To express it in
Lean the model is indexed by a fuel bound on the recursion depth; a result of
`none` means the recursion did not complete within that depth, so a function
on which `none` is reached for every fuel value diverges. -/

/-- Match the body of an `@import` rule after the whitespace:
`url\(['"]?([^'")]+)['"]?\)` or `['"]([^'"]+)['"]`, followed by `;`.
Returns the first quoted span of the matched rule (the URL the source
extracts with `rule.match(/['"]([^'"]+)['"]/)`; `none` when the rule has no
quoted span) and the rest of the input. -/
def parseImportBody (l : List Char) : Option (Option String × List Char) :=
  match l with
  | 'u' :: 'r' :: 'l' :: '(' :: r =>
    let hq := match r with
      | c :: _ => c = dq || c = squo
      | [] => false
    let r1 := if hq then r.drop 1 else r
    let content := r1.takeWhile (fun c => !(c = dq || c = squo || c = ')'))
    if content = [] then none
    else
      let r2 := r1.drop content.length
      let cq := match r2 with
        | c :: _ => c = dq || c = squo
        | [] => false
      let r3 := if cq then r2.drop 1 else r2
      match r3 with
      | ')' :: ';' :: rest =>
        some ((if hq && cq then some (String.mk content) else none), rest)
      | _ => none
  | c :: r =>
    if c = dq || c = squo then
      let content := r.takeWhile (fun x => !(x = dq || x = squo))
      if content = [] then none
      else
        match r.drop content.length with
        | c2 :: ';' :: rest =>
          if c2 = dq || c2 = squo then some (some (String.mk content), rest) else none
        | _ => none
    else none
  | [] => none

/-- Scanner for
`/@import\s+(?:url\(['"]?([^'")]+)['"]?\)|['"]([^'"]+)['"]);/g`, yielding per
match the URL the source's inner quoted-span match extracts.  Fuel as in
`scanColorsGo`. -/
def scanImportRulesGo : Nat → List Char → List (Option String)
  | 0, _ => []
  | _, [] => []
  | f + 1, l@(_ :: t) =>
    if isPrefixL "@import".data l then
      let after := l.drop 7
      let ws := after.takeWhile jsWs
      if ws = [] then scanImportRulesGo f t
      else
        match parseImportBody (after.drop ws.length) with
        | some (cap, rest) => cap :: scanImportRulesGo f rest
        | none => scanImportRulesGo f t
    else scanImportRulesGo f t

/-- The `@import` URLs fetched by the source: matched rules' extracted URLs
with the null captures filtered out (`.filter(Boolean)`). -/
def extractImportUrls (css : String) : List String :=
  (scanImportRulesGo css.data.length css.data).filterMap id

/-- `Promise.all` over fallible recursive fetches: `none` as soon as one
element is `none`. -/
def optionMapAll (f : String → Option String) : List String → Option (List String)
  | [] => some []
  | x :: xs =>
    match f x, optionMapAll f xs with
    | some y, some ys => some (y :: ys)
    | _, _ => none

/-- Join strings with newlines (`[css, ...importedStyles].join('\n')`). -/
def joinStringsNl (ss : List String) : String :=
  String.mk (joinWithChar '\n' (ss.map String.data))

/-- `fetchExternalStylesheet(styleUrl, baseUrl)` over an environment
`env : url → Option css` modelling the proxy fetch (`none` = the fetch threw
or returned a non-OK status, which the source's catch maps to `""`).  The
source recursion has no depth bound; the `fuel` index bounds the modelled
recursion depth and `none` means the computation did not finish within it. -/
def fetchExternalStylesheet (env : String → Option String) :
    Nat → String → String → Option String
  | 0, _, _ => none
  | fuel + 1, styleUrl, baseUrl =>
    match (if jsStartsWith styleUrl "http" then some styleUrl
           else newURLHref styleUrl baseUrl) with
    | none => some ""
    | some fullUrl =>
      match env fullUrl with
      | none => some ""
      | some css =>
        match scanImportRulesGo css.data.length css.data with
        | [] => some css
        | rules =>
          match optionMapAll (fun u => fetchExternalStylesheet env fuel u baseUrl)
              (rules.filterMap id) with
          | none => none
          | some imported => some (joinStringsNl (css :: imported))

/-! ## Concrete fixtures used by the counterexamples and witnesses -/

/-- A store function that accepts nothing (the profile returned by the
orchestrator must not depend on it). -/
def noStore : StoreFn := fun _ _ => { images := [], logo := none }

/-- A document whose only content images are an `ftp://` image and a
relative image that the webcontainer special case of `resolveUrl` later
rewrites into a `data:` URL; its base URI is the webcontainer origin. -/
def ctrDoc : Doc :=
  { emptyDoc with
    baseURI := "https://local-credentialless.webcontainer-api.io/"
    contentImgSrcs := [[], [], [], [],
      [some "ftp://cdn.example.com/a.png", some "foo/data:y.png"]] }

/-- The URL of the self-importing stylesheet of the divergence example. -/
def cycUrl : String := "https://a.com/a.css"

/-- A stylesheet that `@import`s itself. -/
def cycCss : String := "@import \"https://a.com/a.css\";"

/-- A fetch environment containing only the self-importing stylesheet. -/
def cycEnv : String → Option String := fun u => if u = cycUrl then some cycCss else none

/-! ## Helper lemmas -/

/-- A true `isPrefixL` exposes the prefix structurally. -/
theorem isPrefixL_exists {p l : List Char} (h : isPrefixL p l = true) :
    ∃ t, l = p ++ t := by
  induction p generalizing l with
  | nil => exact ⟨l, rfl⟩
  | cons a as ih =>
    cases l with
    | nil => simp [isPrefixL] at h
    | cons b bs =>
      simp only [isPrefixL, Bool.and_eq_true, decide_eq_true_eq] at h
      obtain ⟨rfl, h2⟩ := h
      obtain ⟨t, rfl⟩ := ih h2
      exact ⟨t, rfl⟩

/-- Every character of a true prefix occurs in the list. -/
theorem isPrefixL_mem {p l : List Char} (h : isPrefixL p l = true) {c : Char}
    (hc : c ∈ p) : c ∈ l := by
  obtain ⟨t, rfl⟩ := isPrefixL_exists h
  exact List.mem_append_left t hc

/-- Scheme characters followed by a colon satisfy `schemeTailB`. -/
theorem schemeTailB_append_colon (sc : List Char)
    (h : ∀ c ∈ sc, isSchemeChar c = true) (t : List Char) :
    schemeTailB (sc ++ ':' :: t) = true := by
  induction sc with
  | nil => simp [schemeTailB]
  | cons c cs ih =>
    have hc := h c (List.mem_cons_self c cs)
    have hcs : ∀ x ∈ cs, isSchemeChar x = true := fun x hx => h x (List.mem_cons_of_mem c hx)
    simp [schemeTailB, hc, ih hcs]

/-- `splitAtColon` only succeeds on scheme characters. -/
theorem splitAtColon_scheme : ∀ l a b, splitAtColon l = some (a, b) →
    ∀ x ∈ a, isSchemeChar x = true := by
  intro l
  induction l with
  | nil => intro a b h; simp [splitAtColon] at h
  | cons c r ih =>
    intro a b h
    unfold splitAtColon at h
    split at h
    · rename_i hc
      have h' : ([] : List Char) = a ∧ r = b := by simpa using h
      obtain ⟨h1, _⟩ := h'
      subst h1
      intro x hx; cases hx
    · split at h
      · rename_i hc hs
        match ha : splitAtColon r with
        | none => rw [ha] at h; simp at h
        | some (a1, b1) =>
          rw [ha] at h
          have h' : c :: a1 = a ∧ b1 = b := by simpa using h
          obtain ⟨h1, _⟩ := h'
          subst h1
          intro x hx
          rcases List.mem_cons.mp hx with rfl | hx2
          · exact hs
          · exact ih a1 b1 ha x hx2
      · simp at h

/-- `splitAbsBase` yields an alpha scheme head and a scheme-character tail. -/
theorem splitAbsBase_scheme {base : String} {c : Char} {sc host path : List Char}
    (h : splitAbsBase base = some (c, sc, host, path)) :
    c.isAlpha = true ∧ ∀ x ∈ sc, isSchemeChar x = true := by
  unfold splitAbsBase at h
  split at h
  · simp at h
  · rename_i c0 rest hb
    split at h
    · rename_i ha
      split at h
      · simp at h
      · rename_i sc0 after hs
        split at h
        · rename_i hp
          dsimp only at h
          split at h
          · simp at h
          · have h' : c0 = c ∧ sc0 = sc := by
              have := Option.some.inj h
              exact ⟨congrArg (fun q => q.1) this, congrArg (fun q => q.2.1) this⟩
            obtain ⟨rfl, rfl⟩ := h'
            exact ⟨ha, splitAtColon_scheme rest _ _ hs⟩
        · simp at h
    · simp at h

/-- A scheme-letter head followed by scheme characters and a colon satisfies
`hasSchemeL`. -/
theorem hasSchemeL_cons_append (c : Char) (hc : c.isAlpha = true) (sc : List Char)
    (hsc : ∀ x ∈ sc, isSchemeChar x = true) (t : List Char) :
    hasSchemeL (c :: (sc ++ ':' :: t)) = true := by
  simp only [hasSchemeL, Bool.and_eq_true]
  exact ⟨hc, schemeTailB_append_colon sc hsc t⟩

/-- Any URL the `new URL` model produces carries an explicit scheme. -/
theorem newURLHref_scheme {input base r : String} (h : newURLHref input base = some r) :
    hasScheme r = true := by
  unfold newURLHref at h
  split at h
  · rename_i hi
    cases h; exact hi
  · split at h
    · simp at h
    · rename_i c sc host path hsb
      dsimp only at h
      have hr := Option.some.inj h
      obtain ⟨ha, hsc⟩ := splitAbsBase_scheme hsb
      subst hr
      exact hasSchemeL_cons_append c ha sc hsc _

/-- A string starting with `http://` or `https://` has a scheme. -/
theorem hasScheme_of_http {u : String}
    (h : (jsStartsWith u "http://" || jsStartsWith u "https://") = true) :
    hasScheme u = true := by
  rcases Bool.or_eq_true_iff.mp h with h1 | h1
  · obtain ⟨t, ht⟩ := isPrefixL_exists h1
    unfold hasScheme
    rw [ht, show "http://".data ++ t = 'h' :: ("ttp".data ++ ':' :: ('/' :: '/' :: t)) from rfl]
    exact hasSchemeL_cons_append 'h' (by decide) "ttp".data (by decide) _
  · obtain ⟨t, ht⟩ := isPrefixL_exists h1
    unfold hasScheme
    rw [ht, show "https://".data ++ t = 'h' :: ("ttps".data ++ ':' :: ('/' :: '/' :: t)) from rfl]
    exact hasSchemeL_cons_append 'h' (by decide) "ttps".data (by decide) _

/-- `"https:" ++ u` has a scheme. -/
theorem hasScheme_https_append (u : String) : hasScheme ("https:" ++ u) = true := by
  unfold hasScheme
  rw [String.data_append,
    show "https:".data ++ u.data = 'h' :: ("ttps".data ++ ':' :: u.data) from rfl]
  exact hasSchemeL_cons_append 'h' (by decide) "ttps".data (by decide) _

/-- Every value `resolveUrl` returns is either empty or an absolute URL with
an explicit scheme. -/
theorem resolveUrl_empty_or_scheme (b u : String) :
    resolveUrl b u = "" ∨ hasScheme (resolveUrl b u) = true := by
  unfold resolveUrl
  split
  · exact Or.inl rfl
  split
  · exact Or.inl rfl
  split
  · match hn : newURLHref (assetPathOf u) b with
    | none => exact Or.inl rfl
    | some r => exact Or.inr (newURLHref_scheme hn)
  split
  · rename_i h
    exact Or.inr (hasScheme_of_http (by simpa using h))
  split
  · exact Or.inr (hasScheme_https_append u)
  · match hn : newURLHref u b with
    | none => exact Or.inl rfl
    | some r => exact Or.inr (newURLHref_scheme hn)

/-! ## Claim theorems -/

/-- C9: for every base URL, `resolveUrl(base, "//cdn.x.com/a.png")` resolves
the protocol-relative URL to `"https://cdn.x.com/a.png"`, and for every
`data:` URL input `resolveUrl` returns the empty string. -/
theorem resolveUrl_protocol_relative_and_data :
    (∀ base : String, resolveUrl base "//cdn.x.com/a.png" = "https://cdn.x.com/a.png") ∧
    (∀ base u : String, jsStartsWith u "data:" = true → resolveUrl base u = "") := by
  constructor
  · intro base
    rfl
  · intro base u h
    have hne : ¬(u = "") := by
      intro he
      subst he
      simp [jsStartsWith, isPrefixL] at h
    unfold resolveUrl
    rw [if_neg hne, if_pos h]

/-- Witness for C9's second conjunct at a concrete base and `data:` URL. -/
theorem resolveUrl_protocol_relative_and_data_witness :
    resolveUrl "https://example.com" "data:image/png;base64,AAA" = "" :=
  resolveUrl_protocol_relative_and_data.2 "https://example.com"
    "data:image/png;base64,AAA" (by decide)

/-- C8: under the idealised clock, a call that finds `lastRequestTime = last`
recorded and the current time `now ≥ last` issues its provider request no
earlier than `last + MIN_REQUEST_INTERVAL`; hence two back-to-back generation
calls are separated by at least 20 seconds. -/
theorem rate_limit_min_interval (last now : Nat) (h : last ≤ now) :
    last + MIN_REQUEST_INTERVAL ≤ waitForRateLimit now last := by
  unfold waitForRateLimit MIN_REQUEST_INTERVAL
  split <;> omega

/-- Witness for C8 at `last = 0`, `now = 5`. -/
theorem rate_limit_min_interval_witness :
    0 + MIN_REQUEST_INTERVAL ≤ waitForRateLimit 5 0 :=
  rate_limit_min_interval 0 5 (by decide)

/-- C4: in `makeScrapingBeeRequest`, a quota-exhausted failure is thrown
immediately and never retried (no backoff is slept, on the first attempt or
after a retry); any other failure is retried at most 2 additional times, with
a backoff of `2000 * attemptNumber` ms before each retry, and after the third
failure the last error propagates. -/
theorem bee_retry_policy :
    (∀ a : Nat → BeeOutcome, a 0 = .quota →
      makeScrapingBeeRequest a = (.error .quotaLimit, [])) ∧
    (∀ a : Nat → BeeOutcome, ∀ m, a 0 = .fail m → a 1 = .quota →
      makeScrapingBeeRequest a = (.error .quotaLimit, [2000])) ∧
    (∀ a : Nat → BeeOutcome, ∀ m0 m1 m2,
      a 0 = .fail m0 → a 1 = .fail m1 → a 2 = .fail m2 →
      makeScrapingBeeRequest a = (.error (.upstream m2), [2000, 4000])) := by
  refine ⟨?_, ?_, ?_⟩
  · intro a h0
    simp [makeScrapingBeeRequest, beeGo, h0]
  · intro a m h0 h1
    simp [makeScrapingBeeRequest, beeGo, h0, h1]
  · intro a m0 m1 m2 h0 h1 h2
    simp [makeScrapingBeeRequest, beeGo, h0, h1, h2]

/-- Witness for C4 at concrete attempt outcomes. -/
theorem bee_retry_policy_witness :
    makeScrapingBeeRequest (fun _ => BeeOutcome.quota) = (.error .quotaLimit, []) ∧
    makeScrapingBeeRequest (fun i => if i = 0 then BeeOutcome.fail "boom" else BeeOutcome.quota)
      = (.error .quotaLimit, [2000]) ∧
    makeScrapingBeeRequest
      (fun i => if i = 0 then BeeOutcome.fail "e0"
                else if i = 1 then BeeOutcome.fail "e1" else BeeOutcome.fail "e2")
      = (.error (.upstream "e2"), [2000, 4000]) :=
  ⟨bee_retry_policy.1 _ rfl,
   bee_retry_policy.2.1 _ "boom" rfl rfl,
   bee_retry_policy.2.2 _ "e0" "e1" "e2" rfl rfl rfl⟩

/-- C2: when the rendering fetch fails with the quota-exhausted condition
(`Error('API_LIMIT_REACHED')`), `scrapeWebsite` returns exactly the built-in
`DEFAULT_STYLE` (unmodified) and writes exactly one log entry, with
`success = false` and `using_default_styles = true`. -/
theorem scrape_quota_returns_default (url projectId : String) (brand : Option String)
    (store : StoreFn) :
    scrapeWebsite url projectId brand FetchOutcome.quotaLimit store =
      (DEFAULT_STYLE,
       [{ url := url
          success := false
          assets_found := { colors := 5, fonts := 3, images := 5, logo := false, styles := true }
          errors := some ["API calls limit reached - using default styles"]
          duration_ms := 0
          retries := 0
          using_default_styles := true }]) := rfl

/-- The colour extraction returns at most 5 entries. -/
theorem extractColors_length_le (doc : Doc) : (extractColors doc).length ≤ 5 := by
  unfold extractColors
  exact List.length_take_le 5 _

/-- The font extraction returns at most 3 entries. -/
theorem extractFonts_length_le (doc : Doc) : (extractFonts doc).length ≤ 3 := by
  unfold extractFonts
  exact List.length_take_le 3 _

/-- The final image list has at most 5 entries. -/
theorem finalImagesOf_length_le (url : String) (doc : Doc) :
    (finalImagesOf url doc).length ≤ 5 := by
  unfold finalImagesOf
  exact List.length_take_le 5 _

/-- C10: on the success path the returned profile is computed entirely before
the Asset Persistence Adapter's result is consulted — its `images` are the
fallback-padded `finalImages` and its `logo` the extracted logo URL, for any
two store functions the profiles agree, and the store result reaches only the
`assets_found` counts of the single log entry. -/
theorem scrape_store_frame (url projectId : String) (brand : Option String) (doc : Doc)
    (s1 s2 : StoreFn) :
    (scrapeWebsite url projectId brand (.ok doc) s1).1 =
      (scrapeWebsite url projectId brand (.ok doc) s2).1 ∧
    (scrapeWebsite url projectId brand (.ok doc) s1).1.images = finalImagesOf url doc ∧
    (scrapeWebsite url projectId brand (.ok doc) s1).1.logo = logoOf url doc brand ∧
    ((scrapeWebsite url projectId brand (.ok doc) s1).2.map
        (fun l => { l with assets_found :=
          { colors := 0, fonts := 0, images := 0, logo := false, styles := false } })) =
      ((scrapeWebsite url projectId brand (.ok doc) s2).2.map
        (fun l => { l with assets_found :=
          { colors := 0, fonts := 0, images := 0, logo := false, styles := false } })) ∧
    (scrapeWebsite url projectId brand (.ok doc) s1).2 =
      [{ url := url
         success := true
         assets_found :=
           { colors := (extractColors doc).length
             fonts := (extractFonts doc).length
             images := (s1 (finalImagesOf url doc) (logoOf url doc brand)).images.length
             logo := (s1 (finalImagesOf url doc) (logoOf url doc brand)).logo.isSome
             styles := true }
         errors := none
         duration_ms := 0
         retries := 0
         using_default_styles := false }] :=
  ⟨rfl, rfl, rfl, rfl, rfl⟩

/-- C3 (amended): for every call of `scrapeWebsite` — on the success path and
on every failure path — each entry of the returned profile's `images` is a
nonempty absolute URL with an explicit scheme (never a relative reference),
the `logo`, when present, is likewise schemed or empty, `colors` has length
at most 5, `fonts` at most 3, `images` at most 5, and exactly one
`ScrapingLogEntry` is produced.  (The original claim's stronger demands —
scheme restricted to `http(s)` and `data:` URLs excluded — fail; see the
counterexample.) -/
theorem scrape_profile_invariant (url projectId : String) (brand : Option String)
    (fetch : FetchOutcome) (store : StoreFn) :
    (∀ e ∈ (scrapeWebsite url projectId brand fetch store).1.images,
        e ≠ "" ∧ hasScheme e = true) ∧
    (∀ s, (scrapeWebsite url projectId brand fetch store).1.logo = some s →
        s = "" ∨ hasScheme s = true) ∧
    (scrapeWebsite url projectId brand fetch store).1.colors.length ≤ 5 ∧
    (scrapeWebsite url projectId brand fetch store).1.fonts.length ≤ 3 ∧
    (scrapeWebsite url projectId brand fetch store).1.images.length ≤ 5 ∧
    (scrapeWebsite url projectId brand fetch store).2.length = 1 := by
  have hfb : ∀ x ∈ FALLBACK_IMAGES, x ≠ "" ∧ hasScheme x = true := by decide
  cases fetch with
  | quotaLimit =>
    refine ⟨hfb, ?_, (show DEFAULT_STYLE.colors.length ≤ 5 by decide),
      (show DEFAULT_STYLE.fonts.length ≤ 3 by decide),
      (show DEFAULT_STYLE.images.length ≤ 5 by decide), rfl⟩
    intro s hs
    exact Option.noConfusion hs
  | fail msg =>
    refine ⟨hfb, ?_, (show DEFAULT_STYLE.colors.length ≤ 5 by decide),
      (show DEFAULT_STYLE.fonts.length ≤ 3 by decide),
      (show DEFAULT_STYLE.images.length ≤ 5 by decide), rfl⟩
    intro s hs
    exact Option.noConfusion hs
  | ok doc =>
    have himg : (scrapeWebsite url projectId brand (.ok doc) store).1.images
        = finalImagesOf url doc := rfl
    have hlogo : (scrapeWebsite url projectId brand (.ok doc) store).1.logo
        = logoOf url doc brand := rfl
    have hcol : (scrapeWebsite url projectId brand (.ok doc) store).1.colors
        = if (extractColors doc).length > 0 then extractColors doc
          else DEFAULT_STYLE.colors := rfl
    have hfon : (scrapeWebsite url projectId brand (.ok doc) store).1.fonts
        = if (extractFonts doc).length > 0 then extractFonts doc
          else DEFAULT_STYLE.fonts := rfl
    refine ⟨?_, ?_, ?_, ?_, ?_, rfl⟩
    · rw [himg]
      intro e he
      unfold finalImagesOf at he
      rcases List.mem_append.mp (List.mem_of_mem_take he) with h1 | h2
      · rw [List.mem_filter] at h1
        obtain ⟨h1m, h1p⟩ := h1
        have hne : e ≠ "" := of_decide_eq_true h1p
        obtain ⟨y, _, rfl⟩ := List.mem_map.mp h1m
        rcases resolveUrl_empty_or_scheme url y with hh | hh
        · exact absurd hh hne
        · exact ⟨hne, hh⟩
      · exact hfb e (List.mem_of_mem_drop h2)
    · rw [hlogo]
      intro s hs
      unfold logoOf at hs
      match hfl : findLogo doc brand with
      | none => rw [hfl] at hs; exact Option.noConfusion hs
      | some lu =>
        rw [hfl] at hs
        dsimp only at hs
        by_cases hlu : lu = ""
        · subst hlu
          simp at hs
        · rw [if_pos hlu] at hs
          have hse := Option.some.inj hs
          subst hse
          exact resolveUrl_empty_or_scheme url lu
    · rw [hcol]
      split
      · exact extractColors_length_le doc
      · decide
    · rw [hfon]
      split
      · exact extractFonts_length_le doc
      · decide
    · rw [himg]
      exact finalImagesOf_length_le url doc

/-- Witness for C3's amended invariant, at the concrete fixture document:
the `ftp://` image really is in the returned images and the theorem yields
that it is nonempty and carries a scheme. -/
theorem scrape_profile_invariant_witness :
    "ftp://cdn.example.com/a.png" ≠ "" ∧ hasScheme "ftp://cdn.example.com/a.png" = true :=
  (scrape_profile_invariant "https://example.com" "p1" none (.ok ctrDoc) noStore).1
    "ftp://cdn.example.com/a.png" (by decide)

/-- C3 (counterexample to the claim as stated): for a document whose section
images are `ftp://cdn.example.com/a.png` and — via the webcontainer special
case of `resolveUrl` — `foo/data:y.png` on the webcontainer origin, the
profile returned by `scrapeWebsite` contains the image URL
`"ftp://cdn.example.com/a.png"`, which is neither empty nor an `http(s)` URL,
and the image URL `"data:y.png"`, a `data:` URL. -/
theorem scrape_profile_invariant_ctr :
    "ftp://cdn.example.com/a.png"
        ∈ (scrapeWebsite "https://example.com" "p1" none (.ok ctrDoc) noStore).1.images ∧
    jsStartsWith "ftp://cdn.example.com/a.png" "http://" = false ∧
    jsStartsWith "ftp://cdn.example.com/a.png" "https://" = false ∧
    "ftp://cdn.example.com/a.png" ≠ "" ∧
    "data:y.png" ∈ (scrapeWebsite "https://example.com" "p1" none (.ok ctrDoc) noStore).1.images ∧
    jsStartsWith "data:y.png" "data:" = true := by
  decide

/-- C1 (counterexample to the claim as stated): with three consecutive
retryable provider failures, the live `generateLandingPage` (the variant with
`cleanGeneratedCode`, imported by the UI) returns `html = ""` — the html
field is empty, not the deterministic fallback template, and in particular
not non-empty; `getFallbackTemplate` is never invoked on this path. -/
theorem generate_retry_exhausted_html_empty :
    (generateLandingPage (fun _ => GenOutcome.err "rate_limit")).html = "" ∧
    (generateLandingPage (fun _ => GenOutcome.err "rate_limit")).error = some "rate_limit" := by
  decide

/-- C1 (amended): for every prompt and style profile, if three consecutive
retryable failures occur (retries exhausted), `generateLandingPage` returns
without throwing a result whose `html` field is the empty string and whose
`error` field is the last (third) error message.  (The fallback-template
`html` of the original claim is produced only by the second, unused variant
of the file.) -/
theorem generate_retry_exhausted_returns_error (e1 e2 e3 : String)
    (h1 : retryableMsg e1 = true) (h2 : retryableMsg e2 = true)
    (h3 : retryableMsg e3 = true) :
    generateLandingPage
        (fun i => if i = 0 then GenOutcome.err e1
                  else if i = 1 then GenOutcome.err e2 else GenOutcome.err e3)
      = { html := "", error := some e3 } := by
  simp [generateLandingPage, MAX_RETRIES, genLoop, h1, h2, h3, Option.getD]

/-- Witness for C1's amended theorem at three concrete retryable messages. -/
theorem generate_retry_exhausted_returns_error_witness :
    generateLandingPage
        (fun i => if i = 0 then GenOutcome.err "rate_limit"
                  else if i = 1 then GenOutcome.err "timeout"
                  else GenOutcome.err "network error")
      = { html := "", error := some "network error" } :=
  generate_retry_exhausted_returns_error "rate_limit" "timeout" "network error"
    (by decide) (by decide) (by decide)

/-- C6: in a document in which no hex or `rgb()/rgba()` colour literal occurs
in inline style attributes or `<style>` blocks, `extractColors` returns the
empty list, not the default palette — the source's
`Array.from(colors).slice(0, 5) || DEFAULT_STYLE.colors` never takes the
right branch because an array is always truthy in JS, so the claim's
behaviour is unreachable (the orchestrator separately substitutes
`DEFAULT_STYLE.colors` into the profile at scraper.ts line 561). -/
theorem extractColors_none_found_returns_empty :
    extractColors emptyDoc = [] ∧ DEFAULT_STYLE.colors ≠ [] ∧
    (scrapeWebsite "https://example.com" "p1" none (.ok emptyDoc) noStore).1.colors
      = DEFAULT_STYLE.colors := by
  decide

/-- C7: `fetchExternalStylesheet` caps recursion at no depth whatsoever — on
a stylesheet that `@import`s itself, the recursion fails to complete within
any depth bound `fuel`, i.e. it diverges instead of terminating at a fixed
bound such as 5 as the claim states. -/
theorem fetchStylesheet_cyclic_diverges (fuel : Nat) :
    fetchExternalStylesheet cycEnv fuel cycUrl "https://a.com/" = none := by
  induction fuel with
  | zero => rfl
  | succ n ih =>
    have hred : fetchExternalStylesheet cycEnv (n + 1) cycUrl "https://a.com/" =
        (match optionMapAll
            (fun u => fetchExternalStylesheet cycEnv n u "https://a.com/") [cycUrl] with
         | none => none
         | some imported => some (joinStringsNl (cycCss :: imported))) := rfl
    rw [hred]
    simp [optionMapAll, ih]

/-- `splitOnCharL` never returns the empty list. -/
theorem splitOnCharL_ne_nil (sep : Char) (l : List Char) : splitOnCharL sep l ≠ [] := by
  cases l with
  | nil => simp [splitOnCharL]
  | cons c t =>
    by_cases hc : c = sep
    · simp [splitOnCharL, hc]
    · simp only [splitOnCharL, if_neg hc]
      match splitOnCharL sep t with
      | [] => simp
      | h2 :: r => simp

/-- Joining undoes splitting. -/
theorem joinWithChar_splitOnCharL (sep : Char) (l : List Char) :
    joinWithChar sep (splitOnCharL sep l) = l := by
  induction l with
  | nil => rfl
  | cons c t ih =>
    by_cases hc : c = sep
    · subst hc
      have hsplit : splitOnCharL c (c :: t) = [] :: splitOnCharL c t := by
        simp [splitOnCharL]
      rw [hsplit]
      cases h : splitOnCharL c t with
      | nil => exact absurd h (splitOnCharL_ne_nil c t)
      | cons x r =>
        have hstep : joinWithChar c ([] :: x :: r) = c :: joinWithChar c (x :: r) := rfl
        rw [hstep, ← h, ih]
    · simp only [splitOnCharL, if_neg hc]
      cases h : splitOnCharL sep t with
      | nil => exact absurd h (splitOnCharL_ne_nil sep t)
      | cons x r =>
        cases r with
        | nil =>
          have ht : x = t := by
            have := ih
            rw [h] at this
            exact this
          simp [joinWithChar, ht]
        | cons y r2 =>
          have ht : x ++ sep :: joinWithChar sep (y :: r2) = t := by
            have hstep : x ++ sep :: joinWithChar sep (y :: r2)
                = joinWithChar sep (x :: y :: r2) := rfl
            rw [hstep, ← h, ih]
          show (c :: x) ++ sep :: joinWithChar sep (y :: r2) = c :: t
          rw [List.cons_append, ht]

/-- Characters of a split piece occur in the original list. -/
theorem mem_of_mem_splitOnCharL (sep : Char) :
    ∀ l x, x ∈ splitOnCharL sep l → ∀ c ∈ x, c ∈ l := by
  intro l
  induction l with
  | nil =>
    intro x hx c hc
    simp [splitOnCharL] at hx
    subst hx
    cases hc
  | cons a t ih =>
    intro x hx c hc
    by_cases ha : a = sep
    · rw [show splitOnCharL sep (a :: t) = [] :: splitOnCharL sep t by
        simp [splitOnCharL, ha]] at hx
      rcases List.mem_cons.mp hx with rfl | hx2
      · cases hc
      · exact List.mem_cons_of_mem a (ih x hx2 c hc)
    · simp only [splitOnCharL, if_neg ha] at hx
      cases h : splitOnCharL sep t with
      | nil => exact absurd h (splitOnCharL_ne_nil sep t)
      | cons y r =>
        rw [h] at hx
        rcases List.mem_cons.mp hx with rfl | hx2
        · rcases List.mem_cons.mp hc with rfl | hc2
          · exact List.mem_cons_self c t
          · have hy : y ∈ splitOnCharL sep t := by rw [h]; exact List.mem_cons_self y r
            exact List.mem_cons_of_mem a (ih y hy c hc2)
        · have hx3 : x ∈ splitOnCharL sep t := by rw [h]; exact List.mem_cons_of_mem y hx2
          exact List.mem_cons_of_mem a (ih x hx3 c hc)

/-- A backtick-free line is untouched by the opening-fence pass. -/
theorem stripOpenFenceLine_id {line : List Char} (h : btick ∉ line) :
    stripOpenFenceLine line = line := by
  have h1 : ¬ (isPrefixL "```html".data line = true) :=
    fun hp => h (isPrefixL_mem hp (by decide))
  have h2 : ¬ (isPrefixL "```".data line = true) :=
    fun hp => h (isPrefixL_mem hp (by decide))
  unfold stripOpenFenceLine
  rw [if_neg h1, if_neg h2]

/-- A backtick-free line is untouched by the closing-fence pass. -/
theorem stripCloseFenceLine_id {line : List Char} (h : btick ∉ line) :
    stripCloseFenceLine line = line := by
  have h2 : ¬ (isPrefixL "```".data.reverse line.reverse = true) :=
    fun hp => h (List.mem_reverse.mp (isPrefixL_mem hp (by decide)))
  unfold stripCloseFenceLine
  rw [if_neg h2]

/-- A pass whose line transformation is the identity on all lines is the
identity. -/
theorem passFences_id {strip : List Char → List Char} {l : List Char}
    (h : ∀ x ∈ splitLinesL l, strip x = x) : passFences strip l = l := by
  unfold passFences
  rw [List.map_congr_left h, List.map_id']
  unfold joinLinesL splitLinesL
  exact joinWithChar_splitOnCharL '\n' l

/-- A backtick-free string is untouched by the single-backtick pass. -/
theorem stripWrapTicks_id {l : List Char} (h : btick ∉ l) : stripWrapTicks l = l := by
  cases l with
  | nil => rfl
  | cons c t =>
    have hc : ¬ (c = btick) := fun he => h (he ▸ List.mem_cons_self c t)
    unfold stripWrapTicks
    dsimp only
    rw [if_neg hc]
    cases hr : (c :: t).reverse with
    | nil => rfl
    | cons c2 t2 =>
      have hc2 : ¬ (c2 = btick) := by
        intro he
        apply h
        apply List.mem_reverse.mp
        rw [hr, ← he]
        exact List.mem_cons_self c2 t2
      dsimp only
      rw [if_neg hc2]

/-- `dropWhile` is idempotent. -/
theorem dropWhile_idem (p : Char → Bool) (l : List Char) :
    (l.dropWhile p).dropWhile p = l.dropWhile p := by
  induction l with
  | nil => rfl
  | cons c t ih =>
    by_cases hc : p c = true
    · simp [List.dropWhile_cons, hc, ih]
    · simp [List.dropWhile_cons, hc]

/-- `dropWhile` over an appended singleton. -/
theorem dropWhile_append_single (p : Char → Bool) (xs : List Char) (x : Char) :
    (xs ++ [x]).dropWhile p =
      if (xs.dropWhile p).isEmpty then (if p x then [] else [x])
      else xs.dropWhile p ++ [x] := by
  induction xs with
  | nil => simp [List.dropWhile_cons]
  | cons a as ih =>
    by_cases ha : p a = true
    · simpa [List.dropWhile_cons, ha] using ih
    · simp [List.dropWhile_cons, ha]

/-- Right-trimming preserves the absence of leading trimmable characters. -/
theorem dropWhile_rtrim (p : Char → Bool) (a : List Char) (h : a.dropWhile p = a) :
    ((a.reverse.dropWhile p).reverse).dropWhile p = (a.reverse.dropWhile p).reverse := by
  cases a with
  | nil => rfl
  | cons c t =>
    have hc : p c = false := by
      by_cases hpc : p c = true
      · rw [List.dropWhile_cons, if_pos hpc] at h
        have hlen := congrArg List.length h
        have hle := (List.dropWhile_sublist (l := t) p).length_le
        simp at hlen
        omega
      · simpa using hpc
    rw [List.reverse_cons, dropWhile_append_single]
    by_cases he : (t.reverse.dropWhile p).isEmpty = true
    · rw [if_pos he, if_neg (by simp [hc])]
      simp [List.dropWhile_cons, hc]
    · rw [if_neg he]
      have hrev : ((t.reverse.dropWhile p) ++ [c]).reverse
          = c :: (t.reverse.dropWhile p).reverse := by simp
      rw [hrev, List.dropWhile_cons, if_neg (by simp [hc])]

/-- JS `trim` is idempotent. -/
theorem trimL_trimL (l : List Char) : trimL (trimL l) = trimL l := by
  have haa : (l.dropWhile jsWs).dropWhile jsWs = l.dropWhile jsWs := dropWhile_idem _ _
  have hb1 := dropWhile_rtrim jsWs (l.dropWhile jsWs) haa
  unfold trimL
  rw [hb1, List.reverse_reverse, dropWhile_idem]

/-- A backtick-free, already-trimmed string is a fixed point of
`cleanGeneratedCode`. -/
theorem cleanGeneratedCode_fixed (y : String) (hb : btick ∉ y.data)
    (z : List Char) (hzeq : y.data = trimL z) : cleanGeneratedCode y = y := by
  have hlines : ∀ x ∈ splitLinesL y.data, stripOpenFenceLine x = x := fun x hx =>
    stripOpenFenceLine_id (fun hcm => hb (mem_of_mem_splitOnCharL '\n' y.data x hx btick hcm))
  have hlines2 : ∀ x ∈ splitLinesL y.data, stripCloseFenceLine x = x := fun x hx =>
    stripCloseFenceLine_id (fun hcm => hb (mem_of_mem_splitOnCharL '\n' y.data x hx btick hcm))
  have hkey : cleanGeneratedCode y = String.mk (trimL y.data) := by
    show String.mk (trimL (stripWrapTicks (passFences stripCloseFenceLine
      (passFences stripOpenFenceLine y.data)))) = String.mk (trimL y.data)
    rw [passFences_id hlines, passFences_id hlines2, stripWrapTicks_id hb]
  rw [hkey, hzeq, trimL_trimL, ← hzeq]

/-- C5 (counterexample to the claim as stated): `cleanGeneratedCode` is not
idempotent — on `" ```html"` the leading space hides the fence from the
line-anchored passes, the final trim exposes it, and a second application
removes it. -/
theorem cleanGeneratedCode_not_idempotent :
    cleanGeneratedCode (cleanGeneratedCode " ```html")
      ≠ cleanGeneratedCode " ```html" := by
  decide

/-- C5 (amended): `cleanGeneratedCode` strips a surrounding
```` ```html ... ``` ```` fence — on `"```html\n<p>x</p>\n```"` it returns
`"<p>x</p>"` — and applying it twice yields the same result as applying it
once for every input whose cleaned result contains no backtick (it is not
idempotent in general, see the counterexample). -/
theorem cleanGeneratedCode_fence_and_idem :
    cleanGeneratedCode "```html\n<p>x</p>\n```" = "<p>x</p>" ∧
    ∀ s : String, btick ∉ (cleanGeneratedCode s).data →
      cleanGeneratedCode (cleanGeneratedCode s) = cleanGeneratedCode s := by
  constructor
  · decide
  · intro s hb
    exact cleanGeneratedCode_fixed (cleanGeneratedCode s) hb
      (stripWrapTicks (passFences stripCloseFenceLine (passFences stripOpenFenceLine s.data)))
      rfl

/-- Witness for C5's amended theorem at the fence example. -/
theorem cleanGeneratedCode_fence_and_idem_witness :
    cleanGeneratedCode (cleanGeneratedCode "```html\n<p>x</p>\n```")
      = cleanGeneratedCode "```html\n<p>x</p>\n```" :=
  cleanGeneratedCode_fence_and_idem.2 "```html\n<p>x</p>\n```" (by decide)
